import Mathlib

/-!
Shallow embedding of the interview-session core of the ai-interview-app
repository: the zustand store `src/store/interviewStore.ts` (candidate
registry, session fields, timer, answer submission, resume logic) and the
deterministic parts of `InterviewService` (standard question set, fallback
scorer).  JavaScript numbers are modelled as `Int` (all values involved are
integers; `Math.floor` of a quotient of integers is `Int.fdiv`), `Date`
timestamps as `Int` milliseconds, nullable fields as `Option`, and JS
truthiness of strings/numbers (empty string and `0` are falsy) explicitly.
Float comparisons against the literals `0.8`, `0.5`, `0.2` in the scorer
are modelled as exact rational comparisons via cross-multiplication; for the
integer operands the code produces, the double-precision evaluation agrees.
-/

inductive Difficulty where
  | Easy
  | Medium
  | Hard
deriving DecidableEq, Repr

inductive InterviewStatus where
  | not_started
  | in_progress
  | completed
deriving DecidableEq, Repr

structure Question where
  id : String
  text : String
  difficulty : Difficulty
  timeLimit : Int
  category : String
deriving DecidableEq, Repr

structure Answer where
  questionId : String
  question : String
  answer : String
  timeSpent : Int
  difficulty : Difficulty
  timestamp : Int
deriving DecidableEq, Repr

structure AIEvaluation where
  score : Int
  summary : String
  feedback : String
  strengths : List String
  weaknesses : List String
  recommendations : List String
deriving DecidableEq, Repr

structure Candidate where
  id : String
  name : String
  email : String
  phone : String
  extractedRawText : Option String
  interviewStatus : InterviewStatus
  currentQuestionIndex : Nat
  answers : List Answer
  finalScore : Option Int
  aiSummary : Option String
  aiEvaluation : Option AIEvaluation
  startTime : Option Int
  endTime : Option Int
  totalTime : Option Int
  aiQuestions : Option (List Question)
  aiSessionId : Option String
deriving DecidableEq, Repr

structure InterviewState where
  candidates : List Candidate
  currentCandidateId : Option String
  isInterviewActive : Bool
  currentQuestion : Option Question
  timeRemaining : Int
  showWelcomeBackModal : Bool
  unfinishedSession : Option Candidate
  interviewStartTime : Option Int
  questionStartTime : Option Int
  showFeedbackCompletion : Bool
  lastCompletedCandidateId : Option String
  isSubmittingAnswer : Bool
  isStartingInterview : Bool
  isTransitioningQuestions : Bool
deriving DecidableEq, Repr

/-- JS truthiness of a nullable string: `null` and `""` are falsy. -/
def truthyStr : Option String → Bool
  | some s => s ≠ ""
  | none => false

/-- JS truthiness of a nullable number: `null` and `0` are falsy. -/
def truthyNum : Option Int → Bool
  | some n => n ≠ 0
  | none => false

/-- A partial update (`Partial<Candidate>`) as passed to `updateCandidate`:
`none` means the key is absent from the update object. -/
structure CandidateUpdates where
  name : Option String := none
  email : Option String := none
  phone : Option String := none
  interviewStatus : Option InterviewStatus := none
  currentQuestionIndex : Option Nat := none
  answers : Option (List Answer) := none
  finalScore : Option Int := none
  aiSummary : Option String := none
  aiEvaluation : Option AIEvaluation := none
  startTime : Option Int := none
  endTime : Option Int := none
  totalTime : Option Int := none
  aiQuestions : Option (List Question) := none
  aiSessionId : Option String := none
deriving DecidableEq, Repr

/-- JS object spread `{ ...candidate, ...updates }`: keys present in the
update object override, absent keys keep the candidate's value. -/
def applyUpdates (c : Candidate) (u : CandidateUpdates) : Candidate :=
  { c with
    name := u.name.getD c.name
    email := u.email.getD c.email
    phone := u.phone.getD c.phone
    interviewStatus := u.interviewStatus.getD c.interviewStatus
    currentQuestionIndex := u.currentQuestionIndex.getD c.currentQuestionIndex
    answers := u.answers.getD c.answers
    finalScore := (u.finalScore.map some).getD c.finalScore
    aiSummary := (u.aiSummary.map some).getD c.aiSummary
    aiEvaluation := (u.aiEvaluation.map some).getD c.aiEvaluation
    startTime := (u.startTime.map some).getD c.startTime
    endTime := (u.endTime.map some).getD c.endTime
    totalTime := (u.totalTime.map some).getD c.totalTime
    aiQuestions := (u.aiQuestions.map some).getD c.aiQuestions
    aiSessionId := (u.aiSessionId.map some).getD c.aiSessionId }

/-- `updateCandidate` (interviewStore.ts): merge-patch the candidate whose id
matches; any other candidate, and every other state field, is untouched. -/
def updateCandidate (s : InterviewState) (id : String) (u : CandidateUpdates) : InterviewState :=
  { s with candidates := s.candidates.map fun c => if c.id == id then applyUpdates c u else c }

/-- `deleteCandidate` (interviewStore.ts): filter the candidate list only. -/
def deleteCandidate (s : InterviewState) (id : String) : InterviewState :=
  { s with candidates := s.candidates.filter fun c => c.id != id }

/-- `onRehydrateStorage` consistency check (interviewStore.ts): if
`currentCandidateId` is truthy but no candidate matches, reset the ephemeral
session fields. -/
def onRehydrateStorage (s : InterviewState) : InterviewState :=
  match s.currentCandidateId with
  | some cid =>
    if cid ≠ "" then
      if (s.candidates.find? fun c => c.id == cid).isSome then s
      else
        { s with
          currentCandidateId := none
          isInterviewActive := false
          currentQuestion := none
          timeRemaining := 0
          interviewStartTime := none
          questionStartTime := none
          showFeedbackCompletion := false }
    else s
  | none => s

/-- `tickTimer` (interviewStore.ts): recompute `timeRemaining` from the
absolute `questionStartTime` and report whether time has run out.  The
returned state only changes when the remaining time actually changed. -/
def tickTimer (s : InterviewState) (now : Int) : InterviewState × Bool :=
  match s.questionStartTime, s.currentQuestion with
  | some start, some q =>
    if s.isInterviewActive ∧ start ≠ 0 then
      let elapsed := (now - start).fdiv 1000
      let remaining := max 0 (q.timeLimit - elapsed)
      let s' := if remaining ≠ s.timeRemaining then { s with timeRemaining := remaining } else s
      (s', decide (remaining ≤ 0))
    else (s, false)
  | _, _ => (s, false)

/-- `startQuestionTimer` (interviewStore.ts): back-date the question start
timestamp so the countdown continues from the stored `timeRemaining`. -/
def startQuestionTimer (s : InterviewState) (now : Int) : InterviewState :=
  match s.currentQuestion with
  | none => s
  | some q =>
    let timeLimit := q.timeLimit
    let stored := if s.timeRemaining ≠ 0 then s.timeRemaining else timeLimit
    let remaining := min (max stored 0) timeLimit
    let secondsAlreadyUsed := timeLimit - remaining
    { s with questionStartTime := some (now - secondsAlreadyUsed * 1000) }

/-- The Answer object built by `submitAnswer` from the current question. -/
def mkAnswerFrom (q : Question) (ansText : String) (timeSpent now : Int) : Answer :=
  { questionId := q.id
    question := q.text
    answer := ansText
    timeSpent := timeSpent
    difficulty := q.difficulty
    timestamp := now }

/-- The replace-or-append step of `submitAnswer`: `findIndex` by questionId,
then in-place update, else push. -/
def upsertAnswer (answers : List Answer) (newAnswer : Answer) : List Answer :=
  match answers.findIdx? (fun a => a.questionId == newAnswer.questionId) with
  | some i => answers.set i newAnswer
  | none => answers ++ [newAnswer]

/-- `submitAnswer` (interviewStore.ts): defensive no-ops when the session is
not active or session pointers are falsy; otherwise upsert into the current
candidate's answer list via `updateCandidate`. -/
def submitAnswer (s : InterviewState) (ansText : String) (timeSpent now : Int) : InterviewState :=
  if s.isInterviewActive then
    match s.currentCandidateId, s.currentQuestion with
    | some cid, some q =>
      if cid ≠ "" then
        match s.candidates.find? (fun c => c.id == cid) with
        | some c =>
          updateCandidate s cid { answers := some (upsertAnswer c.answers (mkAnswerFrom q ansText timeSpent now)) }
        | none => s
      else s
    | _, _ => s
  else s

/-! ## InterviewService (src/services): question provider and fallback scorer -/

/-- The fixed built-in question set of `generateStandardQuestions`. -/
def generateStandardQuestions : List Question :=
  [ { id := "1", text := "What is React and what are its main advantages for building user interfaces?", difficulty := .Easy, timeLimit := 20, category := "React" }
  , { id := "2", text := "What is Node.js and how does it differ from traditional server-side technologies?", difficulty := .Easy, timeLimit := 20, category := "Node.js" }
  , { id := "3", text := "Explain the difference between state and props in React. When would you use each?", difficulty := .Medium, timeLimit := 60, category := "React" }
  , { id := "4", text := "How would you handle asynchronous operations in Node.js? Explain callbacks, promises, and async/await.", difficulty := .Medium, timeLimit := 60, category := "Node.js" }
  , { id := "5", text := "Design a real-time chat application using React and Node.js. Explain your architecture, state management, and how you\x27d handle WebSocket connections.", difficulty := .Hard, timeLimit := 120, category := "Full Stack" }
  , { id := "6", text := "You need to build a scalable e-commerce platform. Describe your tech stack, database design, API architecture, and how you\x27d handle high traffic and data consistency.", difficulty := .Hard, timeLimit := 120, category := "Full Stack" } ]

/-- `String.prototype.trim`, over the underlying character list (the strings
involved are ASCII, where this agrees with the JS whitespace set). -/
def strTrim (s : String) : String :=
  ⟨((s.data.dropWhile Char.isWhitespace).reverse.dropWhile Char.isWhitespace).reverse⟩

/-- `String.prototype.toLowerCase`, over the underlying character list (the
keyword and category strings involved are ASCII). -/
def lowerStr (s : String) : String := ⟨s.data.map Char.toLower⟩

/-- Boolean prefix test on character lists. -/
def isPrefixB : List Char → List Char → Bool
  | [], _ => true
  | _ :: _, [] => false
  | a :: as, b :: bs => a == b && isPrefixB as bs

/-- Does `pat` occur as a contiguous run somewhere in the list? -/
def occursIn (pat : List Char) : List Char → Bool
  | [] => isPrefixB pat []
  | b :: bs => isPrefixB pat (b :: bs) || occursIn pat bs

/-- `String.prototype.includes`: the pattern occurs somewhere in the string. -/
def strIncludes (s pat : String) : Bool := occursIn pat.data s.data

/-- The keyword table of `getTechnicalKeywordsForCategory`, in the object's
insertion order. -/
def keywordTable : List (String × List String) :=
  [ ("React", ["react", "component", "state", "props", "hooks", "jsx", "virtual dom", "lifecycle"])
  , ("Node.js", ["node", "express", "npm", "server", "backend", "api", "middleware", "async"])
  , ("JavaScript", ["javascript", "es6", "typescript", "function", "variable", "object", "array", "promise"])
  , ("Database", ["mongodb", "sql", "nosql", "schema", "query", "index", "aggregation", "orm"])
  , ("System Design", ["architecture", "scalability", "microservices", "api", "load balancing", "caching", "performance"])
  , ("Full Stack", ["frontend", "backend", "database", "api", "deployment", "docker", "aws", "cloud"])
  , ("Authentication", ["jwt", "oauth", "session", "token", "security", "encryption", "bcrypt", "passport"])
  , ("API", ["rest", "graphql", "endpoint", "http", "json", "cors", "middleware", "routing"])
  , ("Performance", ["optimization", "caching", "lazy loading", "bundle", "compression", "cdn", "indexing"])
  , ("Testing", ["unit test", "integration", "jest", "mocha", "cypress", "tdd", "coverage"]) ]

/-- Default keyword list when no category matches. -/
def defaultKeywords : List String :=
  ["react", "node", "javascript", "api", "database", "component", "state", "props", "async", "promise"]

/-- `getTechnicalKeywordsForCategory`: first table entry whose key occurs
(case-insensitively) inside the category string, else the default list. -/
def getTechnicalKeywordsForCategory (category : String) : List String :=
  match keywordTable.find? (fun kv => strIncludes (lowerStr category) (lowerStr kv.1)) with
  | some kv => kv.2
  | none => defaultKeywords

/-- Maximum score per question by difficulty (Easy 20, Medium 30, Hard 50). -/
def maxScoreFor : Difficulty → Int
  | .Easy => 20
  | .Medium => 30
  | .Hard => 50

/-- Length-bucket base score of an answer (cumulative 2/3/3/2 points). -/
def lengthScore (len : Nat) : Int :=
  (if len ≥ 10 then 2 else 0) + (if len ≥ 50 then 3 else 0) +
    (if len ≥ 100 then 3 else 0) + (if len ≥ 200 then 2 else 0)

/-- Keyword-relevance bonus: `min 5 matches` plus 5 more when at least three
keywords match. -/
def keywordScore (answerText : String) (category : String) : Int :=
  let kws := getTechnicalKeywordsForCategory category
  let numMatches := (kws.filter fun kw => strIncludes (lowerStr answerText) (lowerStr kw)).length
  (if 0 < numMatches then min 5 (Int.ofNat numMatches) else 0) + (if 3 ≤ numMatches then 5 else 0)

/-- Time-usage adjustment.  The source compares the float `timeSpent /
timeLimit` with `0.8`, `0.5`, `0.2`; here the comparisons are exact
rational ones via cross-multiplication, with the JS division-by-zero and
negative-divisor sign behavior spelled out. -/
def timeUsageScore (timeSpent timeLimit : Int) : Int :=
  if 0 < timeLimit then
    if 4 * timeLimit ≤ 5 * timeSpent then 3
    else if timeLimit ≤ 2 * timeSpent then 1
    else if 5 * timeSpent < timeLimit then -2
    else 0
  else if timeLimit = 0 then
    if 0 < timeSpent then 3 else if timeSpent < 0 then -2 else 0
  else
    if 5 * timeSpent ≤ 4 * timeLimit then 3
    else if 2 * timeSpent ≤ timeLimit then 1
    else if timeLimit < 5 * timeSpent then -2
    else 0

/-- Raw per-question score before clamping: 0 for a whitespace-only answer,
otherwise length + keyword + time-usage points. -/
def rawQuestionScore (a : Answer) (q : Question) : Int :=
  if 0 < (strTrim a.answer).length then
    lengthScore a.answer.length + keywordScore a.answer q.category +
      timeUsageScore a.timeSpent q.timeLimit
  else 0

/-- Per-question score clamped into `[0, maxScoreFor q.difficulty]`. -/
def clampedQuestionScore (a : Answer) (q : Question) : Int :=
  max 0 (min (maxScoreFor q.difficulty) (rawQuestionScore a q))

/-- The `forEach` accumulation of `calculateFinalScore`: the answer at
position `i` is paired with `questions[i]`; a missing question contributes
nothing to either total.  Returns `(totalScore, maxPossibleScore)`. -/
def scoreAnswers (answers : List Answer) (questions : List Question) (i : Nat) : Int × Int :=
  match answers with
  | [] => (0, 0)
  | a :: rest =>
    let p := scoreAnswers rest questions (i + 1)
    match questions[i]? with
    | none => p
    | some q => (clampedQuestionScore a q + p.1, maxScoreFor q.difficulty + p.2)

/-- Keep-first deduplication by `questionId` (the `Map`/`forEach` pass of
`calculateFinalScore`); `seen` is the set of keys already in the map. -/
def dedupSeen (seen : List String) : List Answer → List Answer
  | [] => []
  | a :: rest =>
    if a.questionId ∈ seen then dedupSeen seen rest
    else a :: dedupSeen (a.questionId :: seen) rest

/-- Deduplicate a full answer list, keeping the first occurrence of each
`questionId` in list order. -/
def dedupByQuestionId (l : List Answer) : List Answer := dedupSeen [] l

/-- Order used by the `sort` in `calculateFinalScore` (the comparator
`a.questionId.localeCompare(b.questionId)`, modelled as lexicographic string
order). -/
def qidLe (a b : Answer) : Prop := a.questionId ≤ b.questionId

instance : DecidableRel qidLe := fun a b => inferInstanceAs (Decidable (a.questionId ≤ b.questionId))

/-- Stable sort of answers by `questionId`. -/
def sortAnswersByQid (l : List Answer) : List Answer := List.insertionSort qidLe l

/-- `Math.round (n / d)` for a positive integer divisor `d` (round half
toward positive infinity). -/
def jsRound (n d : Int) : Int := (2 * n + d).fdiv (2 * d)

/-- `InterviewService.calculateFinalScore`: the deterministic fallback
scorer.  Dedup by questionId (first wins), sort by questionId, take 6, pair
positionally with `questions`, total, normalize to 0-100 and clamp. -/
def calculateFinalScore (answers : List Answer) (questions : List Question) : Int :=
  if answers.length = 0 then 0
  else
    let uniqueAnswers := (sortAnswersByQid (dedupByQuestionId answers)).take 6
    let p := scoreAnswers uniqueAnswers questions 0
    let finalScore := if 0 < p.2 then jsRound (p.1 * 100) p.2 else 0
    min 100 (max 0 finalScore)

/-! ## Question generation with fallback -/

/-- One item of the generation capability's parsed `questions` array (the
`AIQuestionResponse` shape consumed by `AIService.createChatSession` in
src/lib/config.ts).  The runtime performs no per-item check — the TS cast on
`difficulty` is erased — so items are modelled at the declared union type. -/
structure RawQuestion where
  id : String
  text : String
  difficulty : Difficulty
  timeLimit : Int
  category : String
deriving DecidableEq, Repr

/-- Outcome of the external generation capability call.  `parsed items sid`
is a response whose text yielded a JSON object carrying a `questions` array
holding `items`; a response with a missing or non-array `questions` field
throws on the same path as `unparseable` text, so both are covered by the
non-`parsed` constructors. -/
inductive CapOutcome where
  | parsed (items : List RawQuestion) (sessionId : String)
  | unparseable
  | thrown
  | timedOut
deriving DecidableEq, Repr

/-- The response-shape handling of `AIService.createChatSession`
(src/lib/config.ts): the only check applied to the parsed payload is that
its `questions` array has length exactly 6 — any other length throws
(`none` here), which `generateQuestionsWithSession` catches and turns into
the fallback.  The 6 accepted items are passed through unchecked, with
their ids rewritten positionally to "1".."6". -/
def createChatSessionQuestions (items : List RawQuestion) : Option (List Question) :=
  if items.length = 6 then
    some (items.enum.map fun p =>
      { id := toString (p.1 + 1), text := p.2.text, difficulty := p.2.difficulty,
        timeLimit := p.2.timeLimit, category := p.2.category })
  else none

/-- `InterviewService.generateQuestionsWithSession`: AI path only when resume
text is truthy and the capability is configured; every failure mode of the
capability (invalid shape, unparseable text, thrown error, timeout) falls
back to the standard question set without throwing. -/
def generateQuestionsWithSession (resumeText : Option String) (configured : Bool)
    (outcome : CapOutcome) : List Question × Option String :=
  if truthyStr resumeText ∧ configured then
    match outcome with
    | .parsed items sessionId =>
      match createChatSessionQuestions items with
      | some qs => (qs, some sessionId)
      | none => (generateStandardQuestions, none)
    | _ => (generateStandardQuestions, none)
  else (generateStandardQuestions, none)

/-- A generation outcome the capability resolved with a valid 6-question
payload; everything else triggers the fallback. -/
def validOutcome : CapOutcome → Bool
  | .parsed items _ => (createChatSessionQuestions items).isSome
  | _ => false

/-! ## startInterview and force-completion -/

/-- `startInterview` (interviewStore.ts).  The external generation call is
represented by its resolved value `genResult` (questions and optional
session id); the returned flag records whether that capability was actually
consulted (the fresh-start path) or not (the resume-reuse path).  `none` as
the state stands for the TypeError the source would raise when
`questions[questionIndex]` is `undefined`. -/
def startInterview (s : InterviewState) (candidateId : String) (isResuming : Bool)
    (genResult : List Question × Option String) (now : Int) : Option InterviewState × Bool :=
  match s.candidates.find? (fun c => c.id == candidateId) with
  | none => (some s, false)
  | some candidate =>
    let useStored : Bool := isResuming &&
      (match candidate.aiQuestions with
       | some qs => decide (0 < qs.length)
       | none => false)
    let questions := if useStored then candidate.aiQuestions.getD [] else genResult.1
    let s0 := if useStored then s
      else updateCandidate s candidateId
        { aiQuestions := some genResult.1
          aiSessionId := if truthyStr genResult.2 then genResult.2 else none }
    let genCalled := !useStored
    match questions[candidate.currentQuestionIndex]? with
    | none => (none, genCalled)
    | some currentQuestion =>
      let prevRemaining : Option Int := if isResuming then some s0.timeRemaining else none
      let initialRemaining :=
        match prevRemaining with
        | some r => if 0 < r ∧ r ≤ currentQuestion.timeLimit then r else currentQuestion.timeLimit
        | none => currentQuestion.timeLimit
      let s1 :=
        { s0 with
          currentCandidateId := some candidateId
          isInterviewActive := true
          currentQuestion := some currentQuestion
          timeRemaining := initialRemaining
          interviewStartTime := some now
          questionStartTime := none }
      (some (updateCandidate s1 candidateId { interviewStatus := some .in_progress, startTime := some now }), genCalled)

/-- The synthesized empty Answer pushed for an unanswered question. -/
def mkEmptyAnswer (q : Question) (now : Int) : Answer :=
  { questionId := q.id
    question := q.text
    answer := ""
    timeSpent := 0
    difficulty := q.difficulty
    timestamp := now }

/-- Result of `InterviewService.generateAISummary`: a summary string and an
optional structured AI evaluation (absent on the fallback path). -/
structure AIResult where
  summary : String
  evaluation : Option AIEvaluation
deriving DecidableEq, Repr

/-- `submitPendingInterviewWithEmptyAnswers` (interviewStore.ts): backfill
empty answers for every question index from the candidate's
`currentQuestionIndex` to the end (the `for` loop is rendered as
`drop`/`map`), mark the candidate completed, then store the final score —
the AI evaluation's score when one came back, otherwise
`calculateFinalScore` over the merged answer list.  `genQs` is the resolved
fallback question fetch used only when the candidate has no bound
`aiQuestions`; `aiResult` is the resolved summary/evaluation call. -/
def submitPendingInterviewWithEmptyAnswers (s : InterviewState) (candidate : Candidate)
    (genQs : List Question) (aiResult : AIResult) (now : Int) : InterviewState :=
  let questions := candidate.aiQuestions.getD genQs
  let totalQuestions := questions.length
  let currentIndex := candidate.currentQuestionIndex
  let emptyAnswers := (questions.drop currentIndex).map fun q => mkEmptyAnswer q now
  let allAnswers := candidate.answers ++ emptyAnswers
  let s1 := updateCandidate s candidate.id
    { answers := some allAnswers
      currentQuestionIndex := some (totalQuestions - 1)
      interviewStatus := some .completed }
  let finalScore := ((aiResult.evaluation.map fun e => e.score)).getD
    (calculateFinalScore allAnswers questions)
  updateCandidate s1 candidate.id
    { finalScore := some finalScore
      aiSummary := some aiResult.summary
      aiEvaluation := aiResult.evaluation
      endTime := some now
      totalTime := some (match candidate.startTime with | some t => now - t | none => 0) }

/-! ## C1: timer tick correctness and idempotence -/

/-- C1: with the interview active, a (nonzero) question start timestamp and a
current question present, `tickTimer` at time `now` sets `timeRemaining` to
`max 0 (timeLimit - floor((now - start)/1000))`, returns `true` exactly when
that remaining value is `≤ 0`, and calling it again at the same instant
returns the very same state and flag (idempotence, hence no double-counting
under repeated polling). -/
theorem tickTimer_correct (s : InterviewState) (q : Question) (start now : Int)
    (hact : s.isInterviewActive = true) (hq : s.currentQuestion = some q)
    (hst : s.questionStartTime = some start) (hnz : start ≠ 0) :
    (tickTimer s now).1.timeRemaining = max 0 (q.timeLimit - (now - start).fdiv 1000) ∧
    ((tickTimer s now).2 = true ↔ max 0 (q.timeLimit - (now - start).fdiv 1000) ≤ 0) ∧
    tickTimer (tickTimer s now).1 now = tickTimer s now := by
  have hcond : s.isInterviewActive = true ∧ start ≠ 0 := ⟨hact, hnz⟩
  by_cases hchg : max 0 (q.timeLimit - (now - start).fdiv 1000) ≠ s.timeRemaining
  · refine ⟨?_, ?_, ?_⟩
    · simp only [tickTimer, hst, hq, if_pos hcond, if_pos hchg]
    · simp only [tickTimer, hst, hq, if_pos hcond, if_pos hchg, decide_eq_true_eq]
    · simp only [tickTimer, hst, hq, if_pos hcond, if_pos hchg]
      simp [if_pos hcond]
  · push_neg at hchg
    refine ⟨?_, ?_, ?_⟩
    · simp only [tickTimer, hst, hq, if_pos hcond, if_neg (not_not_intro hchg)]
      exact hchg.symm
    · simp only [tickTimer, hst, hq, if_pos hcond, if_neg (not_not_intro hchg), decide_eq_true_eq]
    · simp only [tickTimer, hst, hq, if_pos hcond, if_neg (not_not_intro hchg)]

/-- Concrete instance discharging the hypotheses of `tickTimer_correct`. -/
theorem tickTimer_correct_witness :
    (tickTimer
      { candidates := [], currentCandidateId := some "1", isInterviewActive := true,
        currentQuestion := some { id := "1", text := "t", difficulty := .Easy, timeLimit := 20, category := "React" },
        timeRemaining := 20, showWelcomeBackModal := false, unfinishedSession := none,
        interviewStartTime := some 5000, questionStartTime := some 5000,
        showFeedbackCompletion := false, lastCompletedCandidateId := none,
        isSubmittingAnswer := false, isStartingInterview := false, isTransitioningQuestions := false }
      11500).1.timeRemaining = 14 :=
  ((tickTimer_correct _ { id := "1", text := "t", difficulty := .Easy, timeLimit := 20, category := "React" }
    5000 11500 rfl rfl rfl (by decide)).1).trans (by decide)

/-! ## Helper lemmas about the registry operations, and shared demo data -/

theorem map_update_eq_of_no_match (l : List Candidate) (id : String) (u : CandidateUpdates)
    (h : ∀ c ∈ l, c.id ≠ id) :
    (l.map fun c => if c.id == id then applyUpdates c u else c) = l := by
  induction l with
  | nil => rfl
  | cons a t ih =>
    simp only [List.map_cons]
    rw [if_neg (by simp [h a (List.mem_cons_self _ _)]),
      ih fun c hc => h c (List.mem_cons_of_mem _ hc)]

theorem find?_map_update (l : List Candidate) (cid : String) (u : CandidateUpdates) :
    ((l.map fun c => if c.id == cid then applyUpdates c u else c).find? fun c => c.id == cid)
      = (l.find? fun c => c.id == cid).map fun c => applyUpdates c u := by
  induction l with
  | nil => rfl
  | cons a t ih =>
    simp only [List.map_cons]
    cases h : (a.id == cid) with
    | true =>
      rw [if_pos rfl,
        @List.find?_cons_of_pos _ (fun c => c.id == cid) (applyUpdates a u) _ h,
        @List.find?_cons_of_pos _ (fun c => c.id == cid) a _ h]
      rfl
    | false =>
      rw [if_neg (by simp),
        @List.find?_cons_of_neg _ (fun c => c.id == cid) a _ (by simp [h]),
        @List.find?_cons_of_neg _ (fun c => c.id == cid) a _ (by simp [h]), ih]

def demoEasyQ : Question :=
  { id := "1", text := "t1", difficulty := .Easy, timeLimit := 20, category := "React" }

def demoHardQ : Question :=
  { id := "1", text := "t1", difficulty := .Hard, timeLimit := 20, category := "React" }

def demoCandidate : Candidate :=
  { id := "c1", name := "Ada", email := "a@x.com", phone := "555",
    extractedRawText := none, interviewStatus := .in_progress, currentQuestionIndex := 2,
    answers := [], finalScore := none, aiSummary := none, aiEvaluation := none,
    startTime := some 1000, endTime := none, totalTime := none,
    aiQuestions := some generateStandardQuestions, aiSessionId := none }

def demoState : InterviewState :=
  { candidates := [demoCandidate], currentCandidateId := some "c1",
    isInterviewActive := true, currentQuestion := some demoEasyQ, timeRemaining := 15,
    showWelcomeBackModal := false, unfinishedSession := none,
    interviewStartTime := some 5000, questionStartTime := some 5000,
    showFeedbackCompletion := false, lastCompletedCandidateId := none,
    isSubmittingAnswer := false, isStartingInterview := false, isTransitioningQuestions := false }

/-! ## C8: updateCandidate tolerates dangling ids and merge-patches -/

/-- C8: `updateCandidate` on an id not in the registry is an exact no-op on
the whole state; on a present id it rewrites exactly the matching
candidate(s) to the merge-patch `applyUpdates`, keeping every other
position unchanged, and `applyUpdates` keeps the id, keeps every field whose
update key is absent (the empty update is the identity), and overwrites
exactly the given fields. -/
theorem updateCandidate_spec (s : InterviewState) (id : String) (u : CandidateUpdates) :
    ((∀ c ∈ s.candidates, c.id ≠ id) → updateCandidate s id u = s) ∧
    (∀ i : Nat, (updateCandidate s id u).candidates[i]? =
       (s.candidates[i]?).map fun c => if c.id == id then applyUpdates c u else c) ∧
    (updateCandidate s id u).currentCandidateId = s.currentCandidateId ∧
    (∀ c : Candidate, applyUpdates c {} = c) ∧
    (∀ c : Candidate, (applyUpdates c u).id = c.id) ∧
    (∀ c : Candidate, (applyUpdates c u).answers = u.answers.getD c.answers ∧
       (applyUpdates c u).interviewStatus = u.interviewStatus.getD c.interviewStatus) := by
  refine ⟨?_, ?_, rfl, fun c => rfl, fun c => rfl, fun c => ⟨rfl, rfl⟩⟩
  · intro h
    show ({ s with candidates := _ } : InterviewState) = s
    rw [map_update_eq_of_no_match s.candidates id u h]
  · intro i
    simp [updateCandidate, List.getElem?_map]

/-- Concrete instance discharging the dangling-id hypothesis of
`updateCandidate_spec`: patching an absent id leaves the state intact. -/
theorem updateCandidate_spec_witness :
    updateCandidate demoState "ghost" { finalScore := some 50 } = demoState :=
  (updateCandidate_spec demoState "ghost" { finalScore := some 50 }).1 (by decide)

/-! ## C9: deleteCandidate only touches the candidate list -/

/-- C9: `deleteCandidate` removes exactly the candidates with the given id
and leaves every ephemeral session field (current candidate pointer, active
flag, current question, remaining time, both timestamps, unfinished
session) untouched — in particular a deleted current candidate leaves a
dangling `currentCandidateId`, which the rehydration consistency check then
resets. -/
theorem deleteCandidate_frame (s : InterviewState) (id : String) :
    (deleteCandidate s id).currentCandidateId = s.currentCandidateId ∧
    (deleteCandidate s id).isInterviewActive = s.isInterviewActive ∧
    (deleteCandidate s id).currentQuestion = s.currentQuestion ∧
    (deleteCandidate s id).timeRemaining = s.timeRemaining ∧
    (deleteCandidate s id).questionStartTime = s.questionStartTime ∧
    (deleteCandidate s id).interviewStartTime = s.interviewStartTime ∧
    (deleteCandidate s id).unfinishedSession = s.unfinishedSession ∧
    (∀ c ∈ (deleteCandidate s id).candidates, c.id ≠ id) ∧
    (∀ c ∈ s.candidates, c.id ≠ id → c ∈ (deleteCandidate s id).candidates) ∧
    (s.currentCandidateId = some id → id ≠ "" →
      (onRehydrateStorage (deleteCandidate s id)).currentCandidateId = none ∧
      (onRehydrateStorage (deleteCandidate s id)).isInterviewActive = false) := by
  have hmem : ∀ c ∈ (deleteCandidate s id).candidates, c.id ≠ id := by
    intro c hc
    have := (List.mem_filter.mp hc).2
    simpa [bne_iff_ne] using this
  refine ⟨rfl, rfl, rfl, rfl, rfl, rfl, rfl, hmem, ?_, ?_⟩
  · intro c hc hne
    exact List.mem_filter.mpr ⟨hc, by simpa [bne_iff_ne] using hne⟩
  · intro hcid hne
    have hfind : ((deleteCandidate s id).candidates.find? fun c => c.id == id) = none := by
      rw [List.find?_eq_none]
      intro c hc
      simpa using hmem c hc
    have hcur : (deleteCandidate s id).currentCandidateId = some id := hcid
    constructor <;>
      simp [onRehydrateStorage, hcur, hne, hfind]

/-- Concrete instance discharging the hypotheses of `deleteCandidate_frame`:
deleting the in-progress candidate keeps the session fields, and the next
rehydration check resets the dangling pointer. -/
theorem deleteCandidate_frame_witness :
    (onRehydrateStorage (deleteCandidate demoState "c1")).currentCandidateId = none ∧
    (onRehydrateStorage (deleteCandidate demoState "c1")).isInterviewActive = false :=
  (deleteCandidate_frame demoState "c1").2.2.2.2.2.2.2.2.2 rfl (by decide)

/-! ## C2: answer uniqueness with last-write-wins -/

/-- Number of answers recorded for a given questionId. -/
def countAnswersFor (l : List Answer) (qid : String) : Nat :=
  l.countP fun a => a.questionId == qid

theorem upsertAnswer_cons (x : Answer) (l : List Answer) (a : Answer) :
    upsertAnswer (x :: l) a =
      if x.questionId == a.questionId then a :: l else x :: upsertAnswer l a := by
  unfold upsertAnswer
  cases h : (x.questionId == a.questionId) with
  | true => simp [List.findIdx?_cons, h, List.set]
  | false =>
    simp only [List.findIdx?_cons, h, Bool.false_eq_true, if_false, List.findIdx?_succ]
    cases h2 : l.findIdx? (fun b => b.questionId == a.questionId) with
    | none => simp [h2]
    | some i => simp [h2, List.set]

theorem find?_upsertAnswer (l : List Answer) (a : Answer) :
    (upsertAnswer l a).find? (fun b => b.questionId == a.questionId) = some a := by
  induction l with
  | nil =>
    show List.find? _ [a] = some a
    rw [@List.find?_cons_of_pos _ (fun b => b.questionId == a.questionId) a _ (by simp)]
  | cons x t ih =>
    rw [upsertAnswer_cons]
    cases h : (x.questionId == a.questionId) with
    | true =>
      rw [if_pos rfl,
        @List.find?_cons_of_pos _ (fun b => b.questionId == a.questionId) a _ (by simp)]
    | false =>
      rw [if_neg (by simp),
        @List.find?_cons_of_neg _ (fun b => b.questionId == a.questionId) x _ (by simp [h]), ih]

theorem count_upsertAnswer (l : List Answer) (a : Answer) :
    countAnswersFor (upsertAnswer l a) a.questionId =
      if countAnswersFor l a.questionId = 0 then 1 else countAnswersFor l a.questionId := by
  induction l with
  | nil => simp [upsertAnswer, countAnswersFor]
  | cons x t ih =>
    rw [upsertAnswer_cons]
    cases h : (x.questionId == a.questionId) with
    | true =>
      rw [if_pos rfl]
      simp [countAnswersFor, List.countP_cons, h]
    | false =>
      rw [if_neg (by simp)]
      simp only [countAnswersFor, List.countP_cons, h] at *
      simpa using ih

theorem length_upsertAnswer (l : List Answer) (a : Answer) :
    (upsertAnswer l a).length =
      if countAnswersFor l a.questionId = 0 then l.length + 1 else l.length := by
  induction l with
  | nil => simp [upsertAnswer, countAnswersFor]
  | cons x t ih =>
    rw [upsertAnswer_cons]
    cases h : (x.questionId == a.questionId) with
    | true =>
      rw [if_pos rfl]
      simp [countAnswersFor, List.countP_cons, h]
    | false =>
      rw [if_neg (by simp)]
      simp only [countAnswersFor, List.countP_cons, h, List.length_cons] at *
      by_cases h0 : countAnswersFor t a.questionId = 0 <;>
        simp only [countAnswersFor] at h0 <;> simp [ih, h0]

theorem submitAnswer_eq (s : InterviewState) (cid : String) (q : Question) (c : Candidate)
    (ansText : String) (timeSpent now : Int)
    (hact : s.isInterviewActive = true) (hcid : s.currentCandidateId = some cid)
    (hne : cid ≠ "") (hq : s.currentQuestion = some q)
    (hfind : (s.candidates.find? fun cd => cd.id == cid) = some c) :
    submitAnswer s ansText timeSpent now =
      updateCandidate s cid
        { answers := some (upsertAnswer c.answers (mkAnswerFrom q ansText timeSpent now)) } := by
  unfold submitAnswer
  rw [hact, hcid, hq]
  simp only [if_true]
  rw [if_pos hne, hfind]

/-- C2: in an active session with a current question and current candidate
whose answer list satisfies the uniqueness invariant, two successive
`submitAnswer` calls (same current question) leave exactly one answer for
that questionId; the stored answer is the one from the second call (its
text and timeSpent), the first call's entry having been replaced in place
(the list grows by at most the one slot the first call may have added). -/
theorem submitAnswer_dedup (s : InterviewState) (cid : String) (q : Question) (c : Candidate)
    (a1 a2 : String) (t1 t2 n1 n2 : Int)
    (hact : s.isInterviewActive = true) (hcid : s.currentCandidateId = some cid)
    (hne : cid ≠ "") (hq : s.currentQuestion = some q)
    (hfind : (s.candidates.find? fun cd => cd.id == cid) = some c)
    (huniq : countAnswersFor c.answers q.id ≤ 1) :
    ∃ c2, ((submitAnswer (submitAnswer s a1 t1 n1) a2 t2 n2).candidates.find?
        fun cd => cd.id == cid) = some c2 ∧
      countAnswersFor c2.answers q.id = 1 ∧
      (c2.answers.find? fun b => b.questionId == q.id) = some (mkAnswerFrom q a2 t2 n2) ∧
      c2.answers.length =
        (if countAnswersFor c.answers q.id = 0 then c.answers.length + 1 else c.answers.length) := by
  set A1 := mkAnswerFrom q a1 t1 n1 with hA1
  set A2 := mkAnswerFrom q a2 t2 n2 with hA2
  have h1 : submitAnswer s a1 t1 n1 =
      updateCandidate s cid { answers := some (upsertAnswer c.answers A1) } :=
    submitAnswer_eq s cid q c a1 t1 n1 hact hcid hne hq hfind
  set s1 := updateCandidate s cid { answers := some (upsertAnswer c.answers A1) } with hs1
  set c1 : Candidate := applyUpdates c { answers := some (upsertAnswer c.answers A1) } with hc1
  have hfind1 : (s1.candidates.find? fun cd => cd.id == cid) = some c1 := by
    show ((s.candidates.map _).find? _) = _
    rw [find?_map_update, hfind]
    rfl
  have h2 : submitAnswer s1 a2 t2 n2 =
      updateCandidate s1 cid { answers := some (upsertAnswer c1.answers A2) } :=
    submitAnswer_eq s1 cid q c1 a2 t2 n2 hact hcid hne hq hfind1
  set c2 : Candidate := applyUpdates c1 { answers := some (upsertAnswer c1.answers A2) } with hc2
  have hfind2 : ((updateCandidate s1 cid
      { answers := some (upsertAnswer c1.answers A2) }).candidates.find?
        fun cd => cd.id == cid) = some c2 := by
    show ((s1.candidates.map _).find? _) = _
    rw [find?_map_update, hfind1]
    rfl
  have hc1a : c1.answers = upsertAnswer c.answers A1 := rfl
  have hc2a : c2.answers = upsertAnswer c1.answers A2 := rfl
  have hq1 : A1.questionId = q.id := rfl
  have hq2 : A2.questionId = q.id := rfl
  have k1 : countAnswersFor c1.answers q.id = 1 := by
    rw [hc1a, ← hq1, count_upsertAnswer, hq1]
    interval_cases h : countAnswersFor c.answers q.id
    all_goals simp_all
  refine ⟨c2, by rw [h1, h2]; exact hfind2, ?_, ?_, ?_⟩
  · rw [hc2a, ← hq2, count_upsertAnswer, hq2, k1]
    simp
  · have : (upsertAnswer c1.answers A2).find?
        (fun b => b.questionId == A2.questionId) = some A2 := find?_upsertAnswer c1.answers A2
    exact this
  · have e2 : c2.answers.length = c1.answers.length := by
      rw [hc2a, length_upsertAnswer, hq2, k1]
      simp
    have e1 : c1.answers.length =
        (if countAnswersFor c.answers q.id = 0 then c.answers.length + 1 else c.answers.length) := by
      rw [hc1a, length_upsertAnswer, hq1]
    rw [e2, e1]

/-- Concrete instance discharging the hypotheses of `submitAnswer_dedup`. -/
theorem submitAnswer_dedup_witness :
    ∃ c2, ((submitAnswer (submitAnswer demoState "first" 5 6000) "second" 7 6500).candidates.find?
        fun cd => cd.id == "c1") = some c2 ∧
      countAnswersFor c2.answers demoEasyQ.id = 1 ∧
      (c2.answers.find? fun b => b.questionId == demoEasyQ.id) =
        some (mkAnswerFrom demoEasyQ "second" 7 6500) ∧
      c2.answers.length =
        (if countAnswersFor demoCandidate.answers demoEasyQ.id = 0
          then demoCandidate.answers.length + 1 else demoCandidate.answers.length) :=
  submitAnswer_dedup demoState "c1" demoEasyQ demoCandidate "first" "second" 5 7 6000 6500
    rfl rfl (by decide) rfl rfl (by decide)

/-! ## C3: fallback score bounds -/

theorem clampedQuestionScore_nonneg (a : Answer) (q : Question) :
    0 ≤ clampedQuestionScore a q := le_max_left _ _

theorem clampedQuestionScore_le (a : Answer) (q : Question) :
    clampedQuestionScore a q ≤ maxScoreFor q.difficulty :=
  max_le (by cases q.difficulty <;> decide) (min_le_left _ _)

theorem clampedQuestionScore_of_empty (a : Answer) (q : Question) (h : a.answer = "") :
    clampedQuestionScore a q = 0 := by
  unfold clampedQuestionScore rawQuestionScore
  rw [h, if_neg (by decide)]
  exact max_eq_left (min_le_right _ _)

theorem scoreAnswers_bounds (u : List Answer) (qs : List Question) (i : Nat) :
    0 ≤ (scoreAnswers u qs i).1 ∧ (scoreAnswers u qs i).1 ≤ (scoreAnswers u qs i).2 := by
  induction u generalizing i with
  | nil => simp [scoreAnswers]
  | cons a rest ih =>
    simp only [scoreAnswers]
    cases qs[i]? with
    | none => exact ih (i + 1)
    | some q =>
      exact ⟨add_nonneg (clampedQuestionScore_nonneg a q) (ih (i + 1)).1,
        add_le_add (clampedQuestionScore_le a q) (ih (i + 1)).2⟩

theorem scoreAnswers_total_zero (u : List Answer) (qs : List Question) (i : Nat)
    (h : ∀ a ∈ u, a.answer = "") : (scoreAnswers u qs i).1 = 0 := by
  induction u generalizing i with
  | nil => rfl
  | cons a rest ih =>
    simp only [scoreAnswers]
    cases qs[i]? with
    | none => exact ih (i + 1) (fun b hb => h b (List.mem_cons_of_mem _ hb))
    | some q =>
      dsimp only
      rw [clampedQuestionScore_of_empty a q (h a (List.mem_cons_self _ _)),
        ih (i + 1) (fun b hb => h b (List.mem_cons_of_mem _ hb))]
      norm_num

theorem dedupSeen_sublist (seen : List String) (l : List Answer) :
    (dedupSeen seen l).Sublist l := by
  induction l generalizing seen with
  | nil => simp [dedupSeen]
  | cons a t ih =>
    simp only [dedupSeen]
    by_cases h : a.questionId ∈ seen
    · rw [if_pos h]
      exact (ih seen).cons _
    · rw [if_neg h]
      exact (ih _).cons₂ _

theorem mem_of_mem_processed (answers : List Answer) (a : Answer)
    (h : a ∈ (sortAnswersByQid (dedupByQuestionId answers)).take 6) : a ∈ answers := by
  have h1 : a ∈ sortAnswersByQid (dedupByQuestionId answers) :=
    (List.take_sublist _ _).mem h
  have h2 : a ∈ dedupByQuestionId answers := (List.perm_insertionSort qidLe _).subset h1
  exact (dedupSeen_sublist [] answers).mem h2

theorem jsRound_zero (m : Int) (hm : 0 < m) : jsRound 0 m = 0 := by
  unfold jsRound
  rw [Int.fdiv_eq_ediv _ (by omega)]
  exact Int.ediv_eq_zero_of_lt (by omega) (by omega)

/-- C3: the deterministic fallback scorer always returns an integer in
`[0, 100]`; the empty answer list scores exactly 0, and so does a list
whose answers are all empty strings (no division by zero is possible: the
zero-denominator case is explicitly guarded). -/
theorem calculateFinalScore_bounds (answers : List Answer) (questions : List Question) :
    0 ≤ calculateFinalScore answers questions ∧
    calculateFinalScore answers questions ≤ 100 ∧
    (answers = [] → calculateFinalScore answers questions = 0) ∧
    ((∀ a ∈ answers, a.answer = "") → calculateFinalScore answers questions = 0) := by
  refine ⟨?_, ?_, ?_, ?_⟩
  · simp only [calculateFinalScore]
    by_cases h : answers.length = 0
    · simp [h]
    · rw [if_neg h]
      exact le_min (by norm_num) (le_max_left _ _)
  · simp only [calculateFinalScore]
    by_cases h : answers.length = 0
    · simp [h]
    · rw [if_neg h]
      exact min_le_left _ _
  · intro h
    subst h
    rfl
  · intro h
    simp only [calculateFinalScore]
    by_cases h0 : answers.length = 0
    · simp [h0]
    · rw [if_neg h0]
      have ht : (scoreAnswers ((sortAnswersByQid (dedupByQuestionId answers)).take 6)
          questions 0).1 = 0 :=
        scoreAnswers_total_zero _ _ _ (fun a ha => h a (mem_of_mem_processed answers a ha))
      rw [ht]
      by_cases hm : 0 < (scoreAnswers ((sortAnswersByQid (dedupByQuestionId answers)).take 6)
          questions 0).2
      · rw [if_pos hm, show (0 : Int) * 100 = 0 by norm_num, jsRound_zero _ hm]
        decide
      · rw [if_neg hm]
        decide

/-- Concrete instances discharging the hypotheses of
`calculateFinalScore_bounds`: the empty list and an all-empty-answers list
both score exactly 0. -/
theorem calculateFinalScore_bounds_witness :
    calculateFinalScore [] generateStandardQuestions = 0 ∧
    calculateFinalScore [mkEmptyAnswer demoEasyQ 0] generateStandardQuestions = 0 :=
  ⟨(calculateFinalScore_bounds [] generateStandardQuestions).2.2.1 rfl,
   (calculateFinalScore_bounds [mkEmptyAnswer demoEasyQ 0] generateStandardQuestions).2.2.2
     (by decide)⟩

/-! ## C4 and C5: resume path of startInterview -/

theorem startInterview_resume_eq (s : InterviewState) (cid : String) (c : Candidate)
    (qs : List Question) (q : Question) (gen : List Question × Option String) (now : Int)
    (hfind : (s.candidates.find? fun cd => cd.id == cid) = some c)
    (hqs : c.aiQuestions = some qs) (hlen : 0 < qs.length)
    (hq : qs[c.currentQuestionIndex]? = some q) :
    startInterview s cid true gen now =
      (some (updateCandidate
        { s with
          currentCandidateId := some cid
          isInterviewActive := true
          currentQuestion := some q
          timeRemaining :=
            if 0 < s.timeRemaining ∧ s.timeRemaining ≤ q.timeLimit
            then s.timeRemaining else q.timeLimit
          interviewStartTime := some now
          questionStartTime := none }
        cid { interviewStatus := some .in_progress, startTime := some now }), false) := by
  have hd : decide (0 < qs.length) = true := decide_eq_true hlen
  simp only [startInterview, hfind, hqs, hd, Bool.true_and, if_true, Option.getD_some, hq,
    Bool.not_true]

theorem startInterview_fresh_calls_gen (s : InterviewState) (cid : String) (c : Candidate)
    (gen : List Question × Option String) (now : Int)
    (hfind : (s.candidates.find? fun cd => cd.id == cid) = some c) :
    (startInterview s cid false gen now).2 = true := by
  simp only [startInterview, hfind, Bool.false_and, Bool.not_false, Bool.false_eq_true, if_false]
  cases gen.1[c.currentQuestionIndex]? <;> rfl

/-- C5: resuming with a bound non-empty question set reuses exactly the
stored `aiQuestions` (the current question comes from it and the stored set
is still bound, unchanged, afterwards) and does not consult the generation
capability; a fresh (non-resuming) start is the path that does consult it. -/
theorem startInterview_resume_reuses (s : InterviewState) (cid : String) (c : Candidate)
    (qs : List Question) (q : Question) (gen : List Question × Option String) (now : Int)
    (hfind : (s.candidates.find? fun cd => cd.id == cid) = some c)
    (hqs : c.aiQuestions = some qs) (hlen : 0 < qs.length)
    (hq : qs[c.currentQuestionIndex]? = some q) :
    (startInterview s cid true gen now).2 = false ∧
    (∃ st, (startInterview s cid true gen now).1 = some st ∧
      st.currentQuestion = some q ∧
      ∃ c2, (st.candidates.find? fun cd => cd.id == cid) = some c2 ∧
        c2.aiQuestions = some qs ∧ c2.answers = c.answers ∧
        c2.currentQuestionIndex = c.currentQuestionIndex) ∧
    (startInterview s cid false gen now).2 = true := by
  rw [startInterview_resume_eq s cid c qs q gen now hfind hqs hlen hq]
  refine ⟨rfl, ⟨_, rfl, rfl, ?_⟩, startInterview_fresh_calls_gen s cid c gen now hfind⟩
  refine ⟨applyUpdates c { interviewStatus := some .in_progress, startTime := some now },
    ?_, hqs, rfl, rfl⟩
  show ((s.candidates.map _).find? _) = _
  rw [find?_map_update, hfind]
  rfl

/-- The third standard question, where `demoCandidate` is paused. -/
def demoQ3 : Question :=
  { id := "3", text := "Explain the difference between state and props in React. When would you use each?",
    difficulty := .Medium, timeLimit := 60, category := "React" }

/-- Concrete instance discharging the hypotheses of
`startInterview_resume_reuses`. -/
theorem startInterview_resume_reuses_witness :
    (startInterview demoState "c1" true ([], none) 9000).2 = false ∧
    (∃ st, (startInterview demoState "c1" true ([], none) 9000).1 = some st ∧
      st.currentQuestion = some demoQ3 ∧
      ∃ c2, (st.candidates.find? fun cd => cd.id == "c1") = some c2 ∧
        c2.aiQuestions = some generateStandardQuestions ∧ c2.answers = demoCandidate.answers ∧
        c2.currentQuestionIndex = demoCandidate.currentQuestionIndex) ∧
    (startInterview demoState "c1" false ([], none) 9000).2 = true :=
  startInterview_resume_reuses demoState "c1" demoCandidate generateStandardQuestions demoQ3
    ([], none) 9000 rfl rfl (by decide) rfl

theorem startQuestionTimer_tick (st : InterviewState) (q : Question) (R tSQT d : Int)
    (hact : st.isInterviewActive = true) (hq : st.currentQuestion = some q)
    (hrem : st.timeRemaining = R) (hpos : 0 < R) (hle : R ≤ q.timeLimit)
    (hnz : tSQT - (q.timeLimit - R) * 1000 ≠ 0) (hd0 : 0 ≤ d) (hd1 : d < 1000) :
    (startQuestionTimer st tSQT).questionStartTime =
      some (tSQT - (q.timeLimit - R) * 1000) ∧
    (tickTimer (startQuestionTimer st tSQT) (tSQT + d)).1.timeRemaining = R := by
  have hne0 : st.timeRemaining ≠ 0 := by rw [hrem]; exact hpos.ne'
  have hsqt : startQuestionTimer st tSQT =
      { st with questionStartTime := some (tSQT - (q.timeLimit - R) * 1000) } := by
    unfold startQuestionTimer
    rw [hq]
    dsimp only
    rw [if_pos hne0, hrem, max_eq_left hpos.le, min_eq_left hle]
  have helapsed : ((tSQT + d) - (tSQT - (q.timeLimit - R) * 1000)).fdiv 1000 =
      q.timeLimit - R := by
    have h1 : (tSQT + d) - (tSQT - (q.timeLimit - R) * 1000) =
        d + (q.timeLimit - R) * 1000 := by ring
    rw [h1, Int.fdiv_eq_ediv _ (by norm_num),
      Int.add_mul_ediv_right _ _ (by norm_num : (1000 : Int) ≠ 0),
      Int.ediv_eq_zero_of_lt hd0 hd1, zero_add]
  refine ⟨by rw [hsqt], ?_⟩
  rw [hsqt]
  unfold tickTimer
  dsimp only
  rw [hq]
  dsimp only
  rw [hact]
  rw [if_pos ⟨rfl, hnz⟩, helapsed]
  have h2 : q.timeLimit - (q.timeLimit - R) = R := by ring
  rw [h2, max_eq_right hpos.le, hrem]
  rw [if_neg (by omega)]

/-- C4: resuming with persisted `timeRemaining = R` where `0 < R ≤ T` (T the
current question's limit) starts the session with `timeRemaining = R` (and
with the full limit whenever R is out of that range); `startQuestionTimer`
then back-dates the question start by `(T - R)` seconds, so any `tickTimer`
call within the same 1-second window still reports exactly `R`. -/
theorem startInterview_resume_clamp (s : InterviewState) (cid : String) (c : Candidate)
    (qs : List Question) (q : Question) (R : Int) (gen : List Question × Option String)
    (now : Int)
    (hfind : (s.candidates.find? fun cd => cd.id == cid) = some c)
    (hqs : c.aiQuestions = some qs) (hlen : 0 < qs.length)
    (hq : qs[c.currentQuestionIndex]? = some q) (hR : s.timeRemaining = R) :
    ∃ st, (startInterview s cid true gen now).1 = some st ∧
      st.timeRemaining = (if 0 < R ∧ R ≤ q.timeLimit then R else q.timeLimit) ∧
      st.questionStartTime = none ∧
      (∀ tSQT d : Int, 0 < R → R ≤ q.timeLimit →
        tSQT - (q.timeLimit - R) * 1000 ≠ 0 → 0 ≤ d → d < 1000 →
        (startQuestionTimer st tSQT).questionStartTime =
          some (tSQT - (q.timeLimit - R) * 1000) ∧
        (tickTimer (startQuestionTimer st tSQT) (tSQT + d)).1.timeRemaining = R) := by
  rw [startInterview_resume_eq s cid c qs q gen now hfind hqs hlen hq]
  refine ⟨_, rfl, ?_, rfl, ?_⟩
  · show (if 0 < s.timeRemaining ∧ s.timeRemaining ≤ q.timeLimit
        then s.timeRemaining else q.timeLimit) = _
    rw [hR]
  · intro tSQT d hpos hle hnz hd0 hd1
    refine startQuestionTimer_tick _ q R tSQT d rfl rfl ?_ hpos hle hnz hd0 hd1
    show (if 0 < s.timeRemaining ∧ s.timeRemaining ≤ q.timeLimit
        then s.timeRemaining else q.timeLimit) = R
    rw [hR, if_pos ⟨hpos, hle⟩]

/-- Concrete instance discharging the hypotheses of
`startInterview_resume_clamp`: resuming `demoState` (persisted remaining 15
of the 60-second question 3) starts at 15, and the next tick after
`startQuestionTimer` still reads 15. -/
theorem startInterview_resume_clamp_witness :
    ∃ st, (startInterview demoState "c1" true ([], none) 9000).1 = some st ∧
      st.timeRemaining = (if (0 : Int) < 15 ∧ (15 : Int) ≤ demoQ3.timeLimit
        then 15 else demoQ3.timeLimit) ∧
      st.questionStartTime = none ∧
      (∀ tSQT d : Int, (0 : Int) < 15 → (15 : Int) ≤ demoQ3.timeLimit →
        tSQT - (demoQ3.timeLimit - 15) * 1000 ≠ 0 → 0 ≤ d → d < 1000 →
        (startQuestionTimer st tSQT).questionStartTime =
          some (tSQT - (demoQ3.timeLimit - 15) * 1000) ∧
        (tickTimer (startQuestionTimer st tSQT) (tSQT + d)).1.timeRemaining = 15) :=
  startInterview_resume_clamp demoState "c1" demoCandidate generateStandardQuestions demoQ3
    15 ([], none) 9000 rfl rfl (by decide) rfl rfl

/-! ## C6: fallback on malformed or failed question generation -/

/-- C6: whenever the generation capability's outcome is not a valid
6-question response (a `questions` array of a length other than 6 — the
only shape check the AI service performs — unparseable or array-less text,
a thrown error, or a timeout), `generateQuestionsWithSession` returns
(it is total — nothing propagates to the caller) the fixed built-in fallback
set: exactly 6 questions, 2 Easy at 20s, 2 Medium at 60s, 2 Hard at 120s, in
that order. -/
theorem generateQuestions_fallback (resumeText : Option String) (configured : Bool)
    (o : CapOutcome) (hinv : validOutcome o = false) :
    generateQuestionsWithSession resumeText configured o = (generateStandardQuestions, none) ∧
    generateStandardQuestions.length = 6 ∧
    generateStandardQuestions.map (fun q => (q.difficulty, q.timeLimit)) =
      [(Difficulty.Easy, 20), (Difficulty.Easy, 20), (Difficulty.Medium, 60),
       (Difficulty.Medium, 60), (Difficulty.Hard, 120), (Difficulty.Hard, 120)] := by
  refine ⟨?_, by decide, by decide⟩
  unfold generateQuestionsWithSession
  by_cases hc : truthyStr resumeText = true ∧ configured = true
  · rw [if_pos hc]
    cases o with
    | parsed items sid =>
      cases hv : createChatSessionQuestions items with
      | none =>
        dsimp only
        rw [hv]
      | some qs =>
        exfalso
        rw [show validOutcome (CapOutcome.parsed items sid)
            = (createChatSessionQuestions items).isSome from rfl, hv] at hinv
        exact Bool.true_eq_false ▸ hinv
    | unparseable => rfl
    | thrown => rfl
    | timedOut => rfl
  · rw [if_neg hc]

/-- A wrong-count (5 item) generation response. -/
def demoShortResponse : List RawQuestion :=
  List.replicate 5
    { id := "1", text := "t", difficulty := .Easy, timeLimit := 20, category := "React" }

/-- Concrete instance discharging the hypothesis of
`generateQuestions_fallback`: a 5-item response falls back to the standard
set. -/
theorem generateQuestions_fallback_witness :
    generateQuestionsWithSession (some "resume") true (.parsed demoShortResponse "s1") =
      (generateStandardQuestions, none) :=
  (generateQuestions_fallback (some "resume") true (.parsed demoShortResponse "s1")
    (by decide)).1

/-! ## C7: force-completion backfill -/

/-- C7: for a candidate with a bound 6-question set abandoned at index
`k < 6`, `submitPendingInterviewWithEmptyAnswers` appends exactly `6 - k`
synthesized answers — one per remaining question, in order, each with empty
text and zero timeSpent — after the existing answers, marks the candidate
completed, and stores a (non-null) final score computed by the normal
scoring pipeline over the merged answer list (the AI evaluation's score
when one came back, else the deterministic `calculateFinalScore`). -/
theorem submitPending_backfill (s : InterviewState) (c : Candidate) (qs : List Question)
    (genQs : List Question) (aiResult : AIResult) (now : Int)
    (hqs : c.aiQuestions = some qs) (hlen : qs.length = 6)
    (_hk : c.currentQuestionIndex < 6)
    (hfind : ((s.candidates.find? fun cd => cd.id == c.id)).isSome = true) :
    ∃ c2, ((submitPendingInterviewWithEmptyAnswers s c genQs aiResult now).candidates.find?
        fun cd => cd.id == c.id) = some c2 ∧
      c2.answers = c.answers ++
        ((qs.drop c.currentQuestionIndex).map fun q => mkEmptyAnswer q now) ∧
      ((qs.drop c.currentQuestionIndex).map fun q => mkEmptyAnswer q now).length =
        6 - c.currentQuestionIndex ∧
      (∀ a ∈ (qs.drop c.currentQuestionIndex).map fun q => mkEmptyAnswer q now,
        a.answer = "" ∧ a.timeSpent = 0) ∧
      (((qs.drop c.currentQuestionIndex).map fun q => mkEmptyAnswer q now).map
          fun a => a.questionId) = ((qs.drop c.currentQuestionIndex).map fun q => q.id) ∧
      c2.interviewStatus = .completed ∧
      c2.finalScore = some ((aiResult.evaluation.map fun e => e.score).getD
        (calculateFinalScore
          (c.answers ++ ((qs.drop c.currentQuestionIndex).map fun q => mkEmptyAnswer q now))
          qs)) := by
  obtain ⟨c0, hc0⟩ := Option.isSome_iff_exists.mp hfind
  simp only [submitPendingInterviewWithEmptyAnswers, hqs, Option.getD_some]
  have hstep : ∀ (X : InterviewState) (u : CandidateUpdates),
      ((updateCandidate X c.id u).candidates.find? fun cd => cd.id == c.id)
        = (X.candidates.find? fun cd => cd.id == c.id).map fun cd => applyUpdates cd u :=
    fun X u => find?_map_update X.candidates c.id u
  refine ⟨applyUpdates (applyUpdates c0
      { interviewStatus := some .completed,
        currentQuestionIndex := some (qs.length - 1),
        answers := some (c.answers ++
          ((qs.drop c.currentQuestionIndex).map fun q => mkEmptyAnswer q now)) })
      { finalScore := some ((aiResult.evaluation.map fun e => e.score).getD
          (calculateFinalScore (c.answers ++
            ((qs.drop c.currentQuestionIndex).map fun q => mkEmptyAnswer q now)) qs)),
        aiSummary := some aiResult.summary,
        aiEvaluation := aiResult.evaluation,
        endTime := some now,
        totalTime := some (match c.startTime with | some t => now - t | none => 0) },
    ?_, rfl, ?_, ?_, ?_, rfl, rfl⟩
  · rw [hstep, hstep, hc0]
    rfl
  · rw [List.length_map, List.length_drop, hlen]
  · intro a ha
    obtain ⟨q', hq', rfl⟩ := List.mem_map.mp ha
    exact ⟨rfl, rfl⟩
  · rw [List.map_map]
    rfl

/-- A canned AI evaluation result used by concrete instances. -/
def demoAIResult : AIResult :=
  { summary := "done",
    evaluation := some
      { score := 77, summary := "g", feedback := "", strengths := [], weaknesses := [],
        recommendations := [] } }

/-- Concrete instance discharging the hypotheses of `submitPending_backfill`:
the demo candidate abandoned at index 2 ends completed with 4 empty trailing
answers and a non-null final score. -/
theorem submitPending_backfill_witness :
    ∃ c2, ((submitPendingInterviewWithEmptyAnswers demoState demoCandidate [] demoAIResult
        7000).candidates.find? fun cd => cd.id == demoCandidate.id) = some c2 ∧
      c2.answers = demoCandidate.answers ++
        ((generateStandardQuestions.drop demoCandidate.currentQuestionIndex).map
          fun q => mkEmptyAnswer q 7000) ∧
      ((generateStandardQuestions.drop demoCandidate.currentQuestionIndex).map
          fun q => mkEmptyAnswer q 7000).length = 6 - demoCandidate.currentQuestionIndex ∧
      (∀ a ∈ (generateStandardQuestions.drop demoCandidate.currentQuestionIndex).map
          fun q => mkEmptyAnswer q 7000, a.answer = "" ∧ a.timeSpent = 0) ∧
      (((generateStandardQuestions.drop demoCandidate.currentQuestionIndex).map
          fun q => mkEmptyAnswer q 7000).map fun a => a.questionId) =
        ((generateStandardQuestions.drop demoCandidate.currentQuestionIndex).map
          fun q => q.id) ∧
      c2.interviewStatus = .completed ∧
      c2.finalScore = some ((demoAIResult.evaluation.map fun e => e.score).getD
        (calculateFinalScore
          (demoCandidate.answers ++
            ((generateStandardQuestions.drop demoCandidate.currentQuestionIndex).map
              fun q => mkEmptyAnswer q 7000))
          generateStandardQuestions)) :=
  submitPending_backfill demoState demoCandidate generateStandardQuestions [] demoAIResult
    7000 rfl rfl (by decide) rfl

/-! ## C10: scoring preprocessing order -/

theorem dedupSeen_find? (seen : List String) (l : List Answer) (qid : String) :
    ((dedupSeen seen l).find? fun a => a.questionId == qid)
      = if qid ∈ seen then none else (l.find? fun a => a.questionId == qid) := by
  induction l generalizing seen with
  | nil => by_cases h : qid ∈ seen <;> simp [dedupSeen, h]
  | cons a t ih =>
    simp only [dedupSeen]
    by_cases hs : a.questionId ∈ seen
    · rw [if_pos hs, ih seen]
      by_cases hq : qid ∈ seen
      · rw [if_pos hq, if_pos hq]
      · rw [if_neg hq, if_neg hq,
          @List.find?_cons_of_neg _ (fun a => a.questionId == qid) a _
            (by simp; rintro rfl; exact hq hs)]
    · rw [if_neg hs]
      cases hpq : (a.questionId == qid) with
      | true =>
        have hqq : a.questionId = qid := by simpa using hpq
        rw [@List.find?_cons_of_pos _ (fun a => a.questionId == qid) a _ hpq,
          @List.find?_cons_of_pos _ (fun a => a.questionId == qid) a _ hpq,
          if_neg (hqq ▸ hs)]
      | false =>
        rw [@List.find?_cons_of_neg _ (fun a => a.questionId == qid) a _ (by simp [hpq]),
          @List.find?_cons_of_neg _ (fun a => a.questionId == qid) a _ (by simp [hpq]),
          ih (a.questionId :: seen)]
        have : (qid ∈ a.questionId :: seen) ↔ qid ∈ seen := by
          simp only [List.mem_cons]
          constructor
          · rintro (rfl | h)
            · simp at hpq
            · exact h
          · exact Or.inr
        by_cases hq : qid ∈ seen
        · rw [if_pos (this.mpr hq), if_pos hq]
        · rw [if_neg (fun hx => hq (this.mp hx)), if_neg hq]

theorem dedupSeen_nodup (seen : List String) (l : List Answer) :
    ((dedupSeen seen l).map fun a => a.questionId).Nodup ∧
    ∀ a ∈ dedupSeen seen l, a.questionId ∉ seen := by
  induction l generalizing seen with
  | nil => simp [dedupSeen]
  | cons a t ih =>
    simp only [dedupSeen]
    by_cases hs : a.questionId ∈ seen
    · rw [if_pos hs]
      exact ih seen
    · rw [if_neg hs]
      obtain ⟨ihn, ihs⟩ := ih (a.questionId :: seen)
      refine ⟨?_, ?_⟩
      · rw [List.map_cons, List.nodup_cons]
        refine ⟨?_, ihn⟩
        intro hmem
        obtain ⟨b, hb, hbq⟩ := List.mem_map.mp hmem
        exact (ihs b hb) (hbq ▸ List.mem_cons_self _ _)
      · intro b hb
        rcases List.mem_cons.mp hb with rfl | hb2
        · exact hs
        · exact fun hx => (ihs b hb2) (List.mem_cons_of_mem _ hx)

instance : IsTotal Answer qidLe := ⟨fun a b => le_total a.questionId b.questionId⟩

instance : IsTrans Answer qidLe := ⟨fun _ _ _ hab hbc => le_trans hab hbc⟩

/-- The field rewrite `{ a with difficulty := d }`, named so commutation
lemmas can state that the scorer never reads an answer's own difficulty. -/
def setDifficulty (d : Difficulty) (a : Answer) : Answer := { a with difficulty := d }

theorem setDifficulty_questionId (d : Difficulty) (a : Answer) :
    (setDifficulty d a).questionId = a.questionId := rfl

theorem dedupSeen_map_setDifficulty (d : Difficulty) (seen : List String) (l : List Answer) :
    dedupSeen seen (l.map (setDifficulty d)) = (dedupSeen seen l).map (setDifficulty d) := by
  induction l generalizing seen with
  | nil => rfl
  | cons a t ih =>
    simp only [List.map_cons, dedupSeen, setDifficulty_questionId]
    by_cases h : a.questionId ∈ seen
    · rw [if_pos h, if_pos h, ih]
    · rw [if_neg h, if_neg h, List.map_cons, ih]

theorem orderedInsert_map_setDifficulty (d : Difficulty) (a : Answer) (l : List Answer) :
    List.orderedInsert qidLe (setDifficulty d a) (l.map (setDifficulty d)) =
      (List.orderedInsert qidLe a l).map (setDifficulty d) := by
  induction l with
  | nil => rfl
  | cons b t ih =>
    simp only [List.map_cons, List.orderedInsert]
    by_cases h : qidLe a b
    · rw [if_pos h, if_pos (show qidLe (setDifficulty d a) (setDifficulty d b) from h),
        List.map_cons, List.map_cons]
    · rw [if_neg h, if_neg (show ¬qidLe (setDifficulty d a) (setDifficulty d b) from h),
        List.map_cons, ih]

theorem insertionSort_map_setDifficulty (d : Difficulty) (l : List Answer) :
    List.insertionSort qidLe (l.map (setDifficulty d)) =
      (List.insertionSort qidLe l).map (setDifficulty d) := by
  induction l with
  | nil => rfl
  | cons a t ih =>
    simp only [List.map_cons, List.insertionSort, ih, orderedInsert_map_setDifficulty]

theorem scoreAnswers_map_setDifficulty (d : Difficulty) (u : List Answer)
    (qs : List Question) (i : Nat) :
    scoreAnswers (u.map (setDifficulty d)) qs i = scoreAnswers u qs i := by
  induction u generalizing i with
  | nil => rfl
  | cons a rest ih =>
    simp only [List.map_cons, scoreAnswers, ih]
    cases qs[i]? with
    | none => rfl
    | some q => rfl

theorem calculateFinalScore_map_setDifficulty (d : Difficulty) (l : List Answer)
    (qs : List Question) :
    calculateFinalScore (l.map (setDifficulty d)) qs = calculateFinalScore l qs := by
  simp only [calculateFinalScore, List.length_map]
  by_cases h : l.length = 0
  · rw [if_pos h, if_pos h]
  · rw [if_neg h, if_neg h]
    have hpre : (sortAnswersByQid (dedupByQuestionId (l.map (setDifficulty d)))).take 6 =
        ((sortAnswersByQid (dedupByQuestionId l)).take 6).map (setDifficulty d) := by
      unfold sortAnswersByQid dedupByQuestionId
      rw [dedupSeen_map_setDifficulty, insertionSort_map_setDifficulty, List.map_take]
    rw [hpre, scoreAnswers_map_setDifficulty]

/-- A long keyword-rich answer whose own `questionId` and `difficulty` do not
match the question it gets paired with. -/
def demoKeywordAnswer : Answer :=
  { questionId := "zz", question := "t1",
    answer := "react component state props hooks jsx lifecycle virtual dom something to pad this out to one hundred chars ok",
    timeSpent := 18, difficulty := .Hard, timestamp := 1 }

set_option maxRecDepth 10000 in
/-- C10: `calculateFinalScore` deduplicates by keeping the first occurrence
of each questionId in list order (the kept entry for any id is exactly what
a first-match lookup finds, and kept ids are unique and drawn from the
list), sorts by the questionId string (the sorted list is a permutation,
pairwise ordered under `qidLe`), and pairs answers with questions purely by
position: rewriting every answer's own difficulty field never changes the
score, while the concrete 21-point answer scores 100 against an Easy
question at its position (capped at 20 of 20) but 42 against a Hard one
(21 of 50) — the cap comes from the question at the position, not from the
answer. -/
theorem calculateFinalScore_preprocessing (l : List Answer) (qs : List Question)
    (d : Difficulty) :
    (∀ qid : String, ((dedupByQuestionId l).find? fun a => a.questionId == qid)
        = (l.find? fun a => a.questionId == qid)) ∧
    ((dedupByQuestionId l).map fun a => a.questionId).Nodup ∧
    (dedupByQuestionId l).Sublist l ∧
    (sortAnswersByQid l).Perm l ∧
    List.Pairwise qidLe (sortAnswersByQid l) ∧
    calculateFinalScore (l.map (setDifficulty d)) qs = calculateFinalScore l qs ∧
    calculateFinalScore [demoKeywordAnswer] [demoEasyQ] = 100 ∧
    calculateFinalScore [demoKeywordAnswer] [demoHardQ] = 42 := by
  refine ⟨?_, (dedupSeen_nodup [] l).1, dedupSeen_sublist [] l,
    List.perm_insertionSort qidLe l, List.sorted_insertionSort qidLe l,
    calculateFinalScore_map_setDifficulty d l qs, by decide, by decide⟩
  intro qid
  rw [show dedupByQuestionId l = dedupSeen [] l from rfl, dedupSeen_find?]
  rw [if_neg (List.not_mem_nil qid)]
